import Mathlib

/-!
Verification of the AI-Code-Reviewer backend (a single Express server file)
against its natural-language specification.  The server's handlers are
shallowly embedded below: each definition is a direct translation of the
corresponding JavaScript, with external libraries (bcrypt, jsonwebtoken)
abstracted as function parameters and JavaScript-specific semantics
(falsy checks, `split`, regex literals) modelled explicitly.
-/

namespace CodeReviewer

/-! ## Review heuristic (POST /ai/get-review handler body, lines 106-113)

The handler computes
  `lines = code.split('\n').length`
  `hasConsole = /console\\.log|print\\(|System\\.out\\.println/.test(code)`
  `trailingWhitespace = /\\s+$/.test(code)`
and then pushes suggestion strings in a fixed order.

Note the doubled backslashes: they are literally present in the source.
In a JavaScript regex literal, a doubled backslash is an escape for one
literal backslash character, after which the following character keeps
its metacharacter meaning.  Hence the first pattern contains an
unescaped group-opening parenthesis that is never closed, making the
regex literal syntactically invalid, and the second pattern matches a
literal backslash followed by one or more letters s at end of input,
not trailing whitespace. -/

/-- The exact characters between the slashes of the regex literal on
line 107 of the server source (each doubled backslash in the source is
two backslash characters of the pattern). -/
def hasConsolePattern : String := "console\\\\.log|print\\\\(|System\\\\.out\\\\.println"

/-- Scanner for the escape / character-class / group structure of a
JavaScript regex pattern: it walks the pattern characters tracking
whether the previous character was an unconsumed backslash escape,
whether the scanner is inside a character class (where parentheses are
literal), and the current group nesting depth.  It returns true exactly
when every group opened by an unescaped parenthesis outside a class is
closed, no unmatched closing parenthesis occurs, no dangling escape
remains, and every character class is closed -- the group/escape
well-formedness conditions that ECMAScript imposes on a pattern. -/
def jsRegexScan : List Char → Bool → Bool → Nat → Bool
  | [], esc, inCls, depth => !esc && !inCls && depth == 0
  | _ :: rest, true, inCls, depth => jsRegexScan rest false inCls depth
  | '\\' :: rest, false, inCls, depth => jsRegexScan rest true inCls depth
  | '[' :: rest, false, false, depth => jsRegexScan rest false true depth
  | ']' :: rest, false, true, depth => jsRegexScan rest false false depth
  | '(' :: rest, false, false, depth => jsRegexScan rest false false (depth + 1)
  | ')' :: _, false, false, 0 => false
  | ')' :: rest, false, false, depth + 1 => jsRegexScan rest false false depth
  | _ :: rest, false, inCls, depth => jsRegexScan rest false inCls depth

/-- A pattern has well-formed escapes, classes and groups. -/
def jsRegexGroupsValid (pat : String) : Bool :=
  jsRegexScan pat.data false false 0

/-- JavaScript `String.prototype.split` with a one-character separator:
the separator occurrences are delimiters, consecutive separators yield
empty fields, and the result always has one part more than the number
of separator occurrences (in particular the empty string yields one
empty part, as in JavaScript). -/
def splitChar (sep : Char) : List Char → List (List Char)
  | [] => [[]]
  | c :: rest =>
    if c = sep then [] :: splitChar sep rest
    else
      match splitChar sep rest with
      | [] => [[c]]
      | p :: ps => (c :: p) :: ps

/-- `s.split(sep)` for a one-character separator, on strings. -/
def jsSplit (s : String) (sep : Char) : List String :=
  (splitChar sep s.data).map (fun l => String.mk l)

/-- Line 106: `const lines = code.split('\n').length` (this string
literal has a single backslash in the source, so it is a newline). -/
def countLines (code : String) : Nat := (jsSplit code '\n').length

/-- Line 108: `/\\s+$/.test(code)`.  The pattern characters are a
doubled backslash (matching one literal backslash), `s+` (one or more
letters s) and `$` (end of input, no multiline flag): the test succeeds
exactly when the input ends with a literal backslash followed by one or
more characters s. -/
def trailingWhitespace (code : String) : Bool :=
  match code.data.reverse with
  | 's' :: rest =>
    match rest.dropWhile (fun c => c == 's') with
    | '\\' :: _ => true
    | _ => false
  | _ => false

/-- Suggestion string pushed on line 110. -/
def largeMsg : String := "File is large (>200 lines). Consider splitting into modules."

/-- Suggestion string pushed on line 111. -/
def debugMsg : String := "Found debug print statements. Remove or guard them in production."

/-- Suggestion string pushed on line 112. -/
def trailMsg : String := "There appear to be trailing spaces on the last line."

/-- Suggestion string pushed on line 113. -/
def noIssuesMsg : String := "No obvious issues detected by the heuristic review."

/-- Lines 109-113: the ordered suggestion list.  The debug-print flag is
taken as a parameter because the regex literal that computes it on
line 107 is syntactically invalid (see the theorems below), so that
boolean has no JavaScript semantics; every other part of the handler is
translated directly. -/
def suggestions (code : String) (hasConsole : Bool) : List String :=
  let s :=
    (if countLines code > 200 then [largeMsg] else []) ++
    (if hasConsole then [debugMsg] else []) ++
    (if trailingWhitespace code then [trailMsg] else [])
  if s.length = 0 then [noIssuesMsg] else s

/-! ## Request-body field checks

JavaScript request bodies are parsed JSON; `req.body.code` can be any
JSON value or absent.  The handler on line 103 runs
`if (!code || typeof code !== 'string') return res.status(400)...`,
so we model JSON values and the JavaScript falsiness and typeof tests. -/

/-- A parsed JSON value as Express delivers it in `req.body`. -/
inductive JValue where
  | jnull
  | jbool (b : Bool)
  | jnum (n : Int)
  | jstr (s : String)
  | jarr (elems : List JValue)
  | jobj (fields : List (String × JValue))

/-- JavaScript falsiness of an optional JSON value (`!x` is true):
absent (undefined), null, false, zero, or the empty string are falsy;
every array and object is truthy. -/
def jsFalsy : Option JValue → Bool
  | none => true
  | some JValue.jnull => true
  | some (JValue.jbool b) => !b
  | some (JValue.jnum n) => n == 0
  | some (JValue.jstr s) => s == ""
  | some (JValue.jarr _) => false
  | some (JValue.jobj _) => false

/-- `typeof x === 'string'` for an optional JSON value. -/
def jsTypeofString : Option JValue → Bool
  | some (JValue.jstr _) => true
  | _ => false

/-- Line 103: the review route returns 400 (error 'code required') when
`!code || typeof code !== 'string'`. -/
def reviewCodeRejected (code : Option JValue) : Bool :=
  jsFalsy code || !(jsTypeofString code)

/-! ## Data model and user store

A stored user record (lines 65 and 18 of the spec data model); the
users file holds an ordered list of these, read and rewritten whole. -/

structure User where
  id : String
  email : String
  passwordHash : String
  createdAt : String
deriving DecidableEq, Repr

/-- The claim embedded in a session token by `generateToken` (line 50:
`jwt.sign(\x7b id: user.id, email: user.email \x7d, ...)`). -/
structure Claim where
  id : String
  email : String
deriving DecidableEq, Repr

/-- JavaScript falsiness of an optional string field (`!email`):
absent or empty. -/
def strFalsy : Option String → Bool
  | none => true
  | some s => s == ""

/-- JavaScript `toLowerCase()`, modelled character by character (the
emails of this service are ASCII, where this agrees with the JavaScript
Unicode mapping). -/
def jsToLower (s : String) : String := String.mk (s.data.map Char.toLower)

/-- Lines 52-55: `findUserByEmail` scans the stored users for the first
whose email equals the argument case-insensitively. -/
def findUserByEmail (users : List User) (email : String) : Option User :=
  users.find? (fun u => jsToLower u.email == jsToLower email)

/-- Outcome of an auth route: an error response with status and error
body, or a 200 response carrying the token and the public user fields
returned on lines 69 and 80. -/
inductive AuthResponse where
  | err (status : Nat) (error : String)
  | ok (token : String) (userId : String) (userEmail : String)
deriving DecidableEq, Repr

/-- Lines 58-70: the register handler.  External effects are passed as
parameters: `hash` for `bcrypt.hash(password, 10)`, `freshId` for the
`uuidv4()` value, `now` for `new Date().toISOString()`, and `sign` for
`jwt.sign` on the claim.  It returns the response together with the
user list as persisted after the request (unchanged on every failure,
since the handler returns before `writeUsers`). -/
def register (hash : String → String) (freshId : String) (now : String)
    (sign : Claim → String) (users : List User)
    (email password : Option String) : AuthResponse × List User :=
  if strFalsy email || strFalsy password then
    (AuthResponse.err 400 "email and password required", users)
  else
    let e := email.getD ""
    let p := password.getD ""
    match findUserByEmail users e with
    | some _ => (AuthResponse.err 409 "user already exists", users)
    | none =>
      let newUser : User :=
        { id := freshId, email := e, passwordHash := hash p, createdAt := now }
      (AuthResponse.ok (sign { id := newUser.id, email := newUser.email })
          newUser.id newUser.email,
        users ++ [newUser])

/-- Lines 72-81: the login handler.  `compare` stands for
`bcrypt.compare(password, user.passwordHash)` and `sign` for
`jwt.sign`. -/
def login (compare : String → String → Bool) (sign : Claim → String)
    (users : List User) (email password : Option String) : AuthResponse :=
  if strFalsy email || strFalsy password then
    AuthResponse.err 400 "email and password required"
  else
    match findUserByEmail users (email.getD "") with
    | none => AuthResponse.err 401 "invalid credentials"
    | some user =>
      if compare (password.getD "") user.passwordHash then
        AuthResponse.ok (sign { id := user.id, email := user.email })
          user.id user.email
      else AuthResponse.err 401 "invalid credentials"

/-- Result of the auth middleware: a 401 rejection or the verified
payload stored in `req.user` before `next()` runs the route body. -/
inductive AuthGate where
  | reject (status : Nat) (error : String)
  | allow (payload : Claim)
deriving DecidableEq, Repr

/-- Lines 84-97: the bearer-token middleware.  `verify` stands for
`jwt.verify(token, JWT_SECRET)`, returning the embedded claim or none
when that call throws (invalid signature, malformed, expired).  The
header is split on single spaces; exactly two parts are required and
the second is verified.  Note the handler never compares the first
part against the string Bearer. -/
def authMiddleware (verify : String → Option Claim)
    (authHeader : Option String) : AuthGate :=
  if strFalsy authHeader then AuthGate.reject 401 "missing authorization"
  else
    let parts := jsSplit (authHeader.getD "") ' '
    if parts.length ≠ 2 then AuthGate.reject 401 "invalid authorization header"
    else
      match verify (parts.getD 1 "") with
      | some payload => AuthGate.allow payload
      | none => AuthGate.reject 401 "invalid token"

/-- Response of GET /me. -/
inductive MeResponse where
  | err (status : Nat) (error : String)
  | ok (userId : String) (userEmail : String) (createdAt : String)
deriving DecidableEq, Repr

/-- Lines 133-138: the /me route behind the middleware: on a verified
payload it looks up the first stored user with the payload's id and
returns its public fields. -/
def meRoute (verify : String → Option Claim) (users : List User)
    (authHeader : Option String) : MeResponse :=
  match authMiddleware verify authHeader with
  | AuthGate.reject s e => MeResponse.err s e
  | AuthGate.allow payload =>
    match users.find? (fun x => x.id == payload.id) with
    | none => MeResponse.err 404 "not found"
    | some u => MeResponse.ok u.id u.email u.createdAt

/-! ## Concrete demonstration data used in witnesses -/

/-- A one-user store for concrete checks. -/
def demoUsers : List User :=
  [{ id := "1", email := "a@x.com", passwordHash := "H", createdAt := "t0" }]

/-- The user stored in the demo store. -/
def demoUser : User :=
  { id := "1", email := "a@x.com", passwordHash := "H", createdAt := "t0" }

/-- Verifier accepting the one token string tok, as a signature check
would accept a validly signed token. -/
def demoVerify : String → Option Claim :=
  fun t => if t = "tok" then some { id := "1", email := "a@x.com" } else none

/-- A concrete space-free signing function. -/
def demoSign : Claim → String := fun c => "TOK" ++ c.id

/-- Verifier matching demoSign on the claim issued in the round-trip
witness. -/
def demoVerifyReg : String → Option Claim :=
  fun t => if t = "TOK2" then some { id := "2", email := "b@x.com" } else none

end CodeReviewer

namespace CodeReviewer

/-- Claim C1 (code_bug evidence): the pattern of the regex literal on
line 107 is not a well-formed ECMAScript pattern -- its escapes leave a
group-opening parenthesis that is never closed -- while the
single-backslash variant the surrounding strings intend is well
formed.  The regex literal is therefore a syntax error and the handler
can never compute the debug-print flag, let alone push the
suggestion. -/
theorem debug_print_regex_invalid :
    jsRegexGroupsValid hasConsolePattern = false ∧
    jsRegexGroupsValid "console\\.log|print\\(|System\\.out\\.println" = true :=
  ⟨by decide, by decide⟩

/-- Claim C2 (code_bug evidence): the trailing-whitespace test of
line 108 is false on the input consisting of the single line (a and a
trailing space), so no suggestion about it is pushed for either value
of the debug-print flag; the test is instead true on an input ending
in a literal backslash followed by the letter s. -/
theorem trailing_check_misses_spaces :
    trailingWhitespace "a " = false ∧
    trailMsg ∉ suggestions "a " false ∧
    trailMsg ∉ suggestions "a " true ∧
    trailingWhitespace "abc\\ss" = true :=
  ⟨by decide, by decide, by decide, by decide⟩

/-- Claim C3 (code_bug evidence): on the input a-newline-b-newline-c
the review handler's suggestion list would be the no-issues singleton
exactly when the debug-print flag is false, but that flag is computed
by the syntactically invalid regex literal of line 107, so the module
fails to parse and the handler cannot run at all. -/
theorem review_abc_blocked :
    jsRegexGroupsValid hasConsolePattern = false ∧
    suggestions "a\nb\nc" false = [noIssuesMsg] ∧
    suggestions "a\nb\nc" true = [debugMsg] :=
  ⟨by decide, by decide, by decide⟩

/-- Claim C4: for every input and every value of the (unconstructible)
debug-print flag, the suggestion list contains the large-file message
exactly when the line count, computed by splitting on newline, exceeds
200 -- that is, for 201 or more lines it is present and for 200 or
fewer it is not. -/
theorem review_large_iff (code : String) (hc : Bool) :
    largeMsg ∈ suggestions code hc ↔ 200 < countLines code := by
  unfold suggestions
  by_cases h1 : countLines code > 200 <;> cases hc <;>
    by_cases h3 : trailingWhitespace code = true <;>
      simp [h1, h3, largeMsg, debugMsg, trailMsg, noIssuesMsg]

/-- Witness for C4 at a concrete input. -/
theorem review_large_iff_witness :
    largeMsg ∈ suggestions "a\nb\nc" false ↔ 200 < countLines "a\nb\nc" :=
  review_large_iff "a\nb\nc" false

/-- Claim C10: the review route's field check rejects the request
exactly unless the code field is a non-empty JSON string: absent
fields, the empty string, and every non-string JSON value (null,
booleans, numbers, arrays, objects) are rejected with the 400
response, and only a non-empty string reaches the route body. -/
theorem review_code_gate_iff (code : Option JValue) :
    reviewCodeRejected code = false ↔
      ∃ s, code = some (JValue.jstr s) ∧ s ≠ "" := by
  cases code with
  | none => simp [reviewCodeRejected, jsFalsy, jsTypeofString]
  | some v =>
    cases v <;> simp [reviewCodeRejected, jsFalsy, jsTypeofString]

/-- Witness for C10 at a concrete input. -/
theorem review_code_gate_iff_witness :
    reviewCodeRejected (some (JValue.jstr "x")) = false ↔
      ∃ s, some (JValue.jstr "x") = some (JValue.jstr s) ∧ s ≠ "" :=
  review_code_gate_iff (some (JValue.jstr "x"))

end CodeReviewer

namespace CodeReviewer

/-! ## Helper lemmas -/

/-- Searching an appended list skips a first block on which the
predicate is everywhere false. -/
theorem find?_append_none {α : Type} (p : α → Bool) (l1 l2 : List α)
    (h : ∀ a ∈ l1, p a = false) :
    List.find? p (l1 ++ l2) = List.find? p l2 := by
  induction l1 with
  | nil => rfl
  | cons a l ih =>
    have hpa := h a (List.mem_cons_self a l)
    rw [List.cons_append, List.find?_cons_of_neg _ (by simp [hpa])]
    exact ih (fun x hx => h x (List.mem_cons_of_mem a hx))

/-- A list free of the separator splits into itself. -/
theorem splitChar_no_sep (sep : Char) (l : List Char)
    (h : ∀ c ∈ l, c ≠ sep) : splitChar sep l = [l] := by
  induction l with
  | nil => rfl
  | cons c rest ih =>
    have hc : c ≠ sep := h c (List.mem_cons_self c rest)
    rw [splitChar, if_neg hc, ih (fun x hx => h x (List.mem_cons_of_mem c hx))]

/-- A Bearer header made of the scheme word, one space and a
space-free token splits into exactly the scheme and the token. -/
theorem jsSplit_bearer (tok : String) (h : ∀ c ∈ tok.data, c ≠ ' ') :
    jsSplit ("Bearer " ++ tok) ' ' = ["Bearer", tok] := by
  have hsp : splitChar ' ' ("Bearer " ++ tok).data = ["Bearer".data, tok.data] := by
    rw [String.data_append]
    show splitChar ' ' ('B' :: 'e' :: 'a' :: 'r' :: 'e' :: 'r' :: ' ' :: tok.data) = _
    simp [splitChar, splitChar_no_sep ' ' tok.data h]
  unfold jsSplit
  rw [hsp]
  rfl

/-- A nonempty bearer header string. -/
theorem bearer_ne_empty (tok : String) : ("Bearer " ++ tok) ≠ "" := by
  intro hh
  have h2 := congrArg String.data hh
  rw [String.data_append] at h2
  rcases List.append_eq_nil.mp h2 with ⟨h3, _⟩
  exact absurd h3 (by decide)

/-- The first user found with a given id, when ids identify users
uniquely, is that user. -/
theorem find_id_unique (users : List User) (u : User) (hu : u ∈ users)
    (huniq : ∀ v ∈ users, v.id = u.id → v = u) :
    users.find? (fun x => x.id == u.id) = some u := by
  cases hfind : users.find? (fun x => x.id == u.id) with
  | none =>
    rw [List.find?_eq_none] at hfind
    exact absurd (by simp : (u.id == u.id) = true) (by simpa using hfind u hu)
  | some v =>
    have hv1 := List.find?_some hfind
    have hv2 := List.mem_of_find?_eq_some hfind
    have hid : v.id = u.id := by simpa using hv1
    rw [huniq v hv2 hid]

/-! ## Claims about the auth routes -/

/-- Claim C5: with both fields present, a login for an unknown email
and a login for an existing user with a rejected password produce the
identical response: status 401 with body invalid credentials, so the
two failure causes are indistinguishable to the caller. -/
theorem login_indistinguishable
    (compare : String → String → Bool) (sign : Claim → String)
    (users : List User) (e1 p1 e2 p2 : String) (u : User)
    (he1 : e1 ≠ "") (hp1 : p1 ≠ "") (he2 : e2 ≠ "") (hp2 : p2 ≠ "")
    (hnone : findUserByEmail users e1 = none)
    (hfound : findUserByEmail users e2 = some u)
    (hbad : compare p2 u.passwordHash = false) :
    login compare sign users (some e1) (some p1)
      = AuthResponse.err 401 "invalid credentials" ∧
    login compare sign users (some e2) (some p2)
      = AuthResponse.err 401 "invalid credentials" := by
  constructor
  · unfold login
    simp [strFalsy, he1, hp1, hnone]
  · unfold login
    simp [strFalsy, he2, hp2, hfound, hbad]

/-- Witness for C5 at concrete inputs. -/
theorem login_indistinguishable_witness :
    login (fun _ _ => false) (fun _ => "T") demoUsers (some "b@x.com") (some "p")
      = AuthResponse.err 401 "invalid credentials" ∧
    login (fun _ _ => false) (fun _ => "T") demoUsers (some "a@x.com") (some "q")
      = AuthResponse.err 401 "invalid credentials" :=
  login_indistinguishable (fun _ _ => false) (fun _ => "T") demoUsers
    "b@x.com" "p" "a@x.com" "q" demoUser
    (by decide) (by decide) (by decide) (by decide)
    (by decide) (by decide) (by decide)

/-- Claim C6: a registration whose email already belongs to a stored
user under case-insensitive comparison answers 409 with body user
already exists and leaves the persisted collection exactly as it
was. -/
theorem register_conflict_unchanged
    (hash : String → String) (freshId now : String) (sign : Claim → String)
    (users : List User) (email password : String) (u : User)
    (he : email ≠ "") (hp : password ≠ "")
    (hfound : findUserByEmail users email = some u) :
    register hash freshId now sign users (some email) (some password)
      = (AuthResponse.err 409 "user already exists", users) := by
  unfold register
  simp [strFalsy, he, hp, hfound]

/-- Witness for C6: re-registering the stored email in a different
case variant conflicts and the collection is unchanged. -/
theorem register_conflict_unchanged_witness :
    register (fun p => p) "2" "t1" (fun _ => "T") demoUsers
        (some "A@X.com") (some "pw")
      = (AuthResponse.err 409 "user already exists", demoUsers) :=
  register_conflict_unchanged (fun p => p) "2" "t1" (fun _ => "T") demoUsers
    "A@X.com" "pw" demoUser (by decide) (by decide) (by decide)

/-- Claim C9: a successful registration persists exactly the old
collection with the one new user appended at its end, so every
previously stored record and their relative order are untouched. -/
theorem register_appends
    (hash : String → String) (freshId now : String) (sign : Claim → String)
    (users : List User) (email password : String)
    (he : email ≠ "") (hp : password ≠ "")
    (hnone : findUserByEmail users email = none) :
    register hash freshId now sign users (some email) (some password)
      = (AuthResponse.ok (sign { id := freshId, email := email }) freshId email,
         users ++ [{ id := freshId, email := email,
                     passwordHash := hash password, createdAt := now }]) := by
  unfold register
  simp [strFalsy, he, hp, hnone]

/-- Witness for C9 at concrete inputs. -/
theorem register_appends_witness :
    register (fun p => p) "2" "t1" (fun _ => "T") demoUsers
        (some "b@x.com") (some "pw")
      = (AuthResponse.ok "T" "2" "b@x.com",
         demoUsers ++ [{ id := "2", email := "b@x.com",
                         passwordHash := "pw", createdAt := "t1" }]) :=
  register_appends (fun p => p) "2" "t1" (fun _ => "T") demoUsers
    "b@x.com" "pw" (by decide) (by decide) (by decide)

end CodeReviewer

namespace CodeReviewer

/-! ## Middleware and round-trip lemmas -/

/-- A successful registration, spelled out (shared helper). -/
theorem register_success_eq
    (hash : String → String) (freshId now : String) (sign : Claim → String)
    (users : List User) (email password : String)
    (he : email ≠ "") (hp : password ≠ "")
    (hnone : findUserByEmail users email = none) :
    register hash freshId now sign users (some email) (some password)
      = (AuthResponse.ok (sign { id := freshId, email := email }) freshId email,
         users ++ [{ id := freshId, email := email,
                     passwordHash := hash password, createdAt := now }]) := by
  unfold register
  simp [strFalsy, he, hp, hnone]

/-- A successful login, spelled out (shared helper). -/
theorem login_success_eq
    (compare : String → String → Bool) (sign : Claim → String)
    (users : List User) (email password : String) (u : User)
    (he : email ≠ "") (hp : password ≠ "")
    (hfound : findUserByEmail users email = some u)
    (hcomp : compare password u.passwordHash = true) :
    login compare sign users (some email) (some password)
      = AuthResponse.ok (sign { id := u.id, email := u.email }) u.id u.email := by
  unfold login
  simp [strFalsy, he, hp, hfound, hcomp]

/-- The middleware admits a well-formed Bearer header whose token
verifies (shared helper). -/
theorem authMiddleware_bearer_ok (verify : String → Option Claim)
    (tok : String) (c : Claim)
    (hns : ∀ ch ∈ tok.data, ch ≠ ' ') (hv : verify tok = some c) :
    authMiddleware verify (some ("Bearer " ++ tok)) = AuthGate.allow c := by
  unfold authMiddleware
  have hne : ("Bearer " ++ tok) ≠ "" := bearer_ne_empty tok
  have hsp := jsSplit_bearer tok hns
  simp [strFalsy, hne, hsp, hv]

/-- Appending a user with an id unused in the stored list makes it the
one the /me lookup finds for that id (shared helper). -/
theorem find?_append_fresh (users : List User) (nu : User) (i : String)
    (hid : nu.id = i) (hfresh : ∀ u ∈ users, u.id ≠ i) :
    (users ++ [nu]).find? (fun x => x.id == i) = some nu := by
  rw [find?_append_none _ users _ (fun a ha => by simp [hfresh a ha])]
  simp [List.find?, hid]

/-- Claim C7 (counterexample): the header Evil-space-tok is not of the
form Bearer-space-token -- its scheme word is Evil -- and carries a
verifying token in second position; the middleware nevertheless admits
it and the route body executes with the token's payload, instead of
the 401 the claim requires. -/
theorem authMiddleware_scheme_not_checked :
    (jsSplit "Evil tok" ' ').getD 0 "" ≠ "Bearer" ∧
    authMiddleware demoVerify (some "Evil tok")
      = AuthGate.allow { id := "1", email := "a@x.com" } :=
  ⟨by decide, by decide⟩

/-- Claim C7 (amended): the gate admits a request exactly when the
Authorization header value splits on single spaces into exactly two
parts whose second part verifies -- the scheme word is never compared
with Bearer -- and every rejection, whether for an absent or empty
header, a header not splitting into exactly two parts, or a failed
verification, carries status 401 and stops the route body. -/
theorem authMiddleware_gate (verify : String → Option Claim)
    (auth : Option String) (payload : Claim) :
    (authMiddleware verify auth = AuthGate.allow payload ↔
      ∃ scheme token, jsSplit (auth.getD "") ' ' = [scheme, token] ∧
        verify token = some payload) ∧
    (∀ s e, authMiddleware verify auth = AuthGate.reject s e → s = 401) := by
  have hempty : jsSplit "" ' ' = [""] := rfl
  unfold authMiddleware
  cases auth with
  | none => simp [strFalsy, hempty]
  | some a =>
    by_cases ha : a = ""
    · subst ha
      simp [strFalsy, hempty]
    · rcases hsp : jsSplit a ' ' with _ | ⟨x, rest⟩
      · simp [strFalsy, ha, hsp]
      · rcases rest with _ | ⟨y, rest2⟩
        · simp [strFalsy, ha, hsp]
        · rcases rest2 with _ | ⟨z, rest3⟩
          · cases hv : verify y with
            | none => simp [strFalsy, ha, hsp, hv]
            | some c =>
              simp [strFalsy, ha, hsp, hv]
              constructor
              · rintro rfl
                exact ⟨x, y, ⟨rfl, rfl⟩, hv⟩
              · rintro ⟨s, t, ⟨hx, ht⟩, hvp⟩
                subst ht
                rw [hv] at hvp
                exact Option.some.inj hvp
          · simp [strFalsy, ha, hsp]

/-- Witness for the amended C7 at concrete inputs. -/
theorem authMiddleware_gate_witness :
    (authMiddleware demoVerify (some "Bearer tok")
        = AuthGate.allow { id := "1", email := "a@x.com" } ↔
      ∃ scheme token,
        jsSplit ((some "Bearer tok").getD "") ' ' = [scheme, token] ∧
          demoVerify token = some { id := "1", email := "a@x.com" }) ∧
    (∀ s e, authMiddleware demoVerify (some "Bearer tok")
        = AuthGate.reject s e → s = 401) :=
  authMiddleware_gate demoVerify (some "Bearer tok") { id := "1", email := "a@x.com" }

/-- Claim C8: a token issued at register or login, presented while
verification still returns its embedded claim, makes GET /me answer
200 with exactly the user id and email that the issuance response
carried.  The hypotheses say the issued token verifies back to its
claim (unexpired, untampered), that it contains no space character,
that the registered email and id are fresh, respectively that the
logged-in user's id identifies it uniquely in the store. -/
theorem token_roundtrip
    (hash : String → String) (freshId now : String)
    (compare : String → String → Bool)
    (sign : Claim → String) (verify : String → Option Claim)
    (users : List User) (email password : String)
    (he : email ≠ "") (hp : password ≠ "") :
    ((verify (sign { id := freshId, email := email })
        = some { id := freshId, email := email }) →
     (∀ c ∈ (sign { id := freshId, email := email }).data, c ≠ ' ') →
     findUserByEmail users email = none →
     (∀ u ∈ users, u.id ≠ freshId) →
     ∃ tok users2,
       register hash freshId now sign users (some email) (some password)
         = (AuthResponse.ok tok freshId email, users2) ∧
       meRoute verify users2 (some ("Bearer " ++ tok))
         = MeResponse.ok freshId email now) ∧
    (∀ u : User,
     verify (sign { id := u.id, email := u.email })
        = some { id := u.id, email := u.email } →
     (∀ c ∈ (sign { id := u.id, email := u.email }).data, c ≠ ' ') →
     findUserByEmail users email = some u →
     (∀ v ∈ users, v.id = u.id → v = u) →
     compare password u.passwordHash = true →
     ∃ tok,
       login compare sign users (some email) (some password)
         = AuthResponse.ok tok u.id u.email ∧
       meRoute verify users (some ("Bearer " ++ tok))
         = MeResponse.ok u.id u.email u.createdAt) := by
  constructor
  · intro hv hns hnone hfresh
    refine ⟨_, _,
      register_success_eq hash freshId now sign users email password he hp hnone, ?_⟩
    unfold meRoute
    rw [authMiddleware_bearer_ok verify _ _ hns hv]
    have hfind := find?_append_fresh users
      { id := freshId, email := email, passwordHash := hash password, createdAt := now }
      freshId rfl hfresh
    simp [hfind]
  · intro u hv hns hfound huniq hcomp
    refine ⟨_,
      login_success_eq compare sign users email password u he hp hfound hcomp, ?_⟩
    unfold meRoute
    rw [authMiddleware_bearer_ok verify _ _ hns hv]
    have hu : u ∈ users := List.mem_of_find?_eq_some hfound
    simp [find_id_unique users u hu huniq]

/-- Witness for C8: the register branch at concrete inputs. -/
theorem token_roundtrip_witness :
    ∃ tok users2,
      register (fun p => p) "2" "t1" demoSign demoUsers
          (some "b@x.com") (some "pw")
        = (AuthResponse.ok tok "2" "b@x.com", users2) ∧
      meRoute demoVerifyReg users2 (some ("Bearer " ++ tok))
        = MeResponse.ok "2" "b@x.com" "t1" :=
  (token_roundtrip (fun p => p) "2" "t1" (fun _ _ => true) demoSign demoVerifyReg
      demoUsers "b@x.com" "pw" (by decide) (by decide)).1
    (by decide) (by decide) (by decide) (by decide)

end CodeReviewer
